import Mathlib

/-!
Shallow embedding of the per-request `Context` of `@leizm/web`
(`src/lib/context.ts`): the continuation (`next`) stack, initialization of
the request/response wrappers, the session and route accessors, and the
header computation of `proxyWithHeaders`.

HTTP headers are modelled as association lists from header-name strings to
value strings; JavaScript object spread is a shallow clone, `delete`
removes a key, and property assignment replaces a key.

Middleware continuations (`NextFunction` values) are opaque callbacks; we
model each by a numeric identifier, and an operation that would invoke one
instead returns the invocation event (the callback's identifier paired
with the error argument): the callback's own effects belong to the
dispatch engine, which lives outside `context.ts`.
-/

namespace LeizmWeb

/-- A header collection: an association list of name/value pairs (a
JavaScript object whose values are strings). -/
abbrev HeaderMap := List (String × String)

/-- Modelled from the spec: `ErrorReason` (`src/lib/define.ts`, not under
`src/`) is the error value a handler passes to `next`; represented
abstractly as a string. -/
abbrev ErrorReason := String

/-- A continuation identifier standing for a `NextFunction` callback; see
the module docstring. -/
abbrev NextFunction := Nat

/-- Property lookup `headers[k]` on a header object. -/
def hdrGet (h : HeaderMap) (k : String) : Option String :=
  (h.find? (fun p => p.1 == k)).map (fun p => p.2)

/-- JavaScript `delete headers[k]`. -/
def hdrDelete (h : HeaderMap) (k : String) : HeaderMap :=
  h.filter (fun p => p.1 != k)

/-- Property assignment `headers[k] = v` (replaces any existing value). -/
def hdrSet (h : HeaderMap) (k v : String) : HeaderMap :=
  (k, v) :: hdrDelete h k

/-- Object spread `{ ...headers }`: a shallow clone of the header object. -/
def cloneHeaders (h : HeaderMap) : HeaderMap :=
  h.map (fun p => p)

/-- The fields of a raw Node.js `IncomingMessage` that `context.ts` and its
wrappers read: the HTTP method (absent on some messages), the request
path, and the inbound headers. -/
structure IncomingMessage where
  method : Option String
  path : String
  headers : HeaderMap
deriving DecidableEq, Repr

/-- The fields of a raw Node.js `ServerResponse` that the model needs: the
outbound header set. -/
structure ServerResponse where
  headers : HeaderMap
deriving DecidableEq, Repr

/-- Modelled from the spec: the `Request` wrapper (`src/lib/request.ts`,
not under `src/`) adapts the raw inbound message into a typed object
exposing its method, path and headers. -/
structure Request where
  method : Option String
  path : String
  headers : HeaderMap
deriving DecidableEq, Repr

/-- Modelled from the spec: the `Response` wrapper (`src/lib/response.ts`,
not under `src/`) adapts the raw outbound stream and can store response
headers. -/
structure Response where
  headers : HeaderMap
deriving DecidableEq, Repr

/-- `response.setHeader(k, v)`: store header `k` with value `v`, replacing
any existing value. -/
def Response.setHeader (r : Response) (k v : String) : Response :=
  { headers := hdrSet r.headers k v }

/-- Route metadata (`RawRouteInfo` in `src/lib/define.ts`): an HTTP method
and a matched path, as read at `context.ts` line 105. -/
structure RawRouteInfo where
  method : String
  path : String
deriving DecidableEq, Repr

/-- Modelled from the spec: a session object attached by the external
session component; only its identity matters here. -/
structure SessionInstance where
  instId : Nat
deriving DecidableEq, Repr

/-- A proxy target descriptor: the parsed destination (kept abstract as the
URL string) plus optional header overrides, matching the optional
`headers` field assigned at `context.ts` line 198. -/
structure ProxyTarget where
  url : String
  headers : Option HeaderMap
deriving DecidableEq, Repr

/-- Modelled from the spec: `parseProxyTarget`
(`src/lib/module/proxy.request.ts`, not under `src/`) normalizes a URL
string into a target descriptor carrying no header overrides of its own. -/
def parseProxyTarget (url : String) : ProxyTarget :=
  { url := url, headers := none }

/-- Modelled from the spec: `proxyRequest`
(`src/lib/module/proxy.request.ts`, not under `src/`) "supplies the result
as override headers to the upstream call": the upstream request is sent
with the target's override headers when they are present, otherwise with
the inbound headers. -/
def upstreamRequestHeaders (inbound : HeaderMap) (t : ProxyTarget) : HeaderMap :=
  t.headers.getD inbound

/-- The per-request `Context` state (`src/lib/context.ts`): the optional
request/response wrappers (`_request`, `_response`), the continuation
stack (`nextHandleStack`, a JavaScript array whose end is the top), the
optional session object (`[SYMBOL_SESSION]`) and the optional route
metadata (`[SYMBOL_RAW_ROUTE_INFO]`). -/
structure Context where
  _request : Option Request
  _response : Option Response
  nextHandleStack : List NextFunction
  sessionSymbol : Option SessionInstance
  rawRouteInfo : Option RawRouteInfo
deriving DecidableEq, Repr

/-- A freshly constructed `Context`: no wrappers, an empty continuation
stack, no session, no route metadata. -/
def Context.create : Context :=
  { _request := none, _response := none, nextHandleStack := [],
    sessionSymbol := none, rawRouteInfo := none }

/-- `Context.createRequest` (context.ts:61-63): wrap the raw message. -/
def createRequest (req : IncomingMessage) : Request :=
  { method := req.method, path := req.path, headers := req.headers }

/-- `Context.createResponse` (context.ts:70-72): wrap the raw stream. -/
def createResponse (res : ServerResponse) : Response :=
  { headers := res.headers }

/-- `Context.init` (context.ts:80-90): unconditionally build fresh
Request/Response wrappers from the raw objects and set the
`X-Powered-By: @leizm/web` header on the response. The source contains no
guard against being called on an already-initialized context, and no
`throw`; the event-listener registrations (`finish`, `writeHead`) and the
empty `inited` hook are not modelled, as no claim concerns them. -/
def Context.init (c : Context) (req : IncomingMessage) (res : ServerResponse) : Context :=
  let request := createRequest req
  let response := (createResponse res).setHeader "X-Powered-By" "@leizm/web"
  { c with _request := some request, _response := some response }

/-- `Context.session` getter (context.ts:45-48): return the attached
session object, or throw when none is attached. -/
def Context.session (c : Context) : Except String SessionInstance :=
  match c.sessionSymbol with
  | some s => Except.ok s
  | none => Except.error "ctx.session: please use component.session() middleware firstly"

/-- `Context.route` getter (context.ts:101-106): the attached route
metadata when present, otherwise a default derived from the request
wrapper's method (empty string when absent, matching `method || ""`) and
path. Returns `none` only on an uninitialized context, where the source
would fault reading the absent request wrapper. -/
def Context.route (c : Context) : Option RawRouteInfo :=
  match c.rawRouteInfo with
  | some r => some r
  | none => c._request.map (fun q => { method := q.method.getD "", path := q.path })

/-- `Context.next` (context.ts:127-132): read the element at index
`length - 1` of the continuation stack (its top); when one is there,
invoke it with the optional error. The stack itself is not modified. The
result pairs the (unchanged) context with the invocation event, `none`
when the stack was empty. -/
def Context.next (c : Context) (err : Option ErrorReason) :
    Context × Option (NextFunction × Option ErrorReason) :=
  match c.nextHandleStack.getLast? with
  | some f => (c, some (f, err))
  | none => (c, none)

/-- `Context[SYMBOL_PUSH_NEXT_HANDLE]` (context.ts:139-141): JavaScript
`Array.push`, appending at the end (the top) of the stack. -/
def Context.pushNextHandle (c : Context) (f : NextFunction) : Context :=
  { c with nextHandleStack := c.nextHandleStack ++ [f] }

/-- `Context[SYMBOL_POP_NEXT_HANDLE]` (context.ts:146-148): JavaScript
`Array.pop`, removing and returning the last element, or returning
`undefined` (here `none`) on an empty array. -/
def Context.popNextHandle (c : Context) : Context × Option NextFunction :=
  ({ c with nextHandleStack := c.nextHandleStack.dropLast },
    c.nextHandleStack.getLast?)

/-- The source's default removal list for `proxyWithHeaders`
(context.ts:192): `["host"]`. -/
def defaultRemoveHeaderNames : List String :=
  ["host"]

/-- `Context.proxyWithHeaders` (context.ts:192-200): parse the target URL,
shallow-clone the request wrapper's headers, delete each name of
`removeHeaderNames` from the clone, and install the result as the
target's override headers. The context is returned unchanged, reflecting
that every mutation acts on the clone. On an uninitialized context the
inbound headers default to `[]`, where the source would fault reading the
absent request wrapper. -/
def Context.proxyWithHeaders (c : Context) (url : String)
    (removeHeaderNames : List String) : ProxyTarget × Context :=
  let target := parseProxyTarget url
  let originalHeaders := cloneHeaders ((c._request.map (fun q => q.headers)).getD [])
  let finalHeaders := removeHeaderNames.foldl hdrDelete originalHeaders
  ({ target with headers := some finalHeaders }, c)

theorem cloneHeaders_eq (h : HeaderMap) : cloneHeaders h = h := by
  simp [cloneHeaders]

theorem hdrGet_hdrDelete_self (h : HeaderMap) (k : String) :
    hdrGet (hdrDelete h k) k = none := by
  have hnone : (hdrDelete h k).find? (fun p => p.1 == k) = none := by
    rw [List.find?_eq_none]
    intro p hp
    simp only [hdrDelete] at hp
    have hmem := List.of_mem_filter hp
    simpa using hmem
  simp [hdrGet, hnone]

theorem hdrGet_hdrDelete_ne (h : HeaderMap) (n k : String) (hk : k ≠ n) :
    hdrGet (hdrDelete h n) k = hdrGet h k := by
  induction h with
  | nil => rfl
  | cons p t ih =>
    have hnk : ¬ n = k := fun e => hk e.symm
    by_cases hp : p.1 = n
    · simpa [hdrDelete, hdrGet, List.filter_cons, List.find?_cons, hp, hnk] using ih
    · by_cases hpk : p.1 = k
      · simp [hdrDelete, hdrGet, List.filter_cons, List.find?_cons, hp, hpk, hk]
      · simpa [hdrDelete, hdrGet, List.filter_cons, List.find?_cons, hp, hpk] using ih

theorem hdrGet_foldl_hdrDelete (names : List String) (h : HeaderMap) (k : String) :
    hdrGet (names.foldl hdrDelete h) k = if k ∈ names then none else hdrGet h k := by
  induction names generalizing h with
  | nil => simp
  | cons n t ih =>
    rw [List.foldl_cons, ih]
    by_cases hk : k ∈ t
    · simp [hk]
    · by_cases hn : k = n
      · subst hn
        simp [hk, hdrGet_hdrDelete_self]
      · simp [hk, hn, hdrGet_hdrDelete_ne h n k hn]

theorem hdrGet_hdrSet_self (h : HeaderMap) (k v : String) :
    hdrGet (hdrSet h k v) k = some v := by
  simp [hdrGet, hdrSet, List.find?_cons]

theorem getLast_append_single (l : List NextFunction) (a : NextFunction) :
    (l ++ [a]).getLast? = some a :=
  List.getLast?_concat l

theorem dropLast_append_single (l : List NextFunction) (a : NextFunction) :
    (l ++ [a]).dropLast = l :=
  List.dropLast_concat

/-- Sample raw request used by concrete witnesses. -/
def sampleRawRequest : IncomingMessage :=
  { method := some "GET", path := "/demo",
    headers := [("host", "example.com"), ("accept", "text/html")] }

/-- Sample raw response used by concrete witnesses. -/
def sampleRawResponse : ServerResponse :=
  { headers := [] }

/-- A context initialized once, from the sample raw objects. -/
def sampleCtx : Context :=
  Context.create.init sampleRawRequest sampleRawResponse

/-- The sample context's request wrapper. -/
def sampleRequest : Request :=
  createRequest sampleRawRequest

/-- A second, distinct raw request, used to exercise a repeated `init`. -/
def secondRawRequest : IncomingMessage :=
  { method := some "POST", path := "/other", headers := [] }

/-- A second raw response, used to exercise a repeated `init`. -/
def secondRawResponse : ServerResponse :=
  { headers := [("x-old", "1")] }

/-- The sample context after `init` was called a second time. -/
def twiceCtx : Context :=
  sampleCtx.init secondRawRequest secondRawResponse

/-- A context whose continuation stack holds the single callback `5`. -/
def ctxWithHandle : Context :=
  Context.create.pushNextHandle 5

/-- The sample context with a session object attached. -/
def sessionCtx : Context :=
  { sampleCtx with sessionSymbol := some { instId := 7 } }

/-- The sample context with route metadata attached by the dispatch
engine. -/
def routedCtx : Context :=
  { sampleCtx with rawRouteInfo := some { method := "GET", path := "/m" } }

/-- A raw request with no HTTP method, for the route-default witness. -/
def methodlessRawRequest : IncomingMessage :=
  { method := none, path := "/plain", headers := [] }

/-- A context initialized from the method-less raw request. -/
def methodlessCtx : Context :=
  Context.create.init methodlessRawRequest sampleRawResponse

/-- C1 counterexample: on the context whose stack is `[5]`, `next`
invokes callback `5`, yet `5` is still on the stack afterwards — `next`
does not pop the continuation it invokes. -/
theorem next_leaves_invoked_handle_on_stack_cex :
    (ctxWithHandle.next none).2 = some (5, none) ∧
    5 ∈ (ctxWithHandle.next none).1.nextHandleStack := by
  constructor
  · rfl
  · decide

/-- C1 (amended): for every context whose continuation stack has top
continuation `n`, `next err` invokes `n` with `err` but leaves the whole
context — in particular the stack — unchanged; removal happens only
through the separate pop operation. -/
theorem next_invokes_top_without_popping (c : Context) (n : NextFunction)
    (err : Option ErrorReason) (h : c.nextHandleStack.getLast? = some n) :
    c.next err = (c, some (n, err)) := by
  simp [Context.next, h]

/-- Witness for C1 (amended) at the concrete context with stack `[5]`. -/
theorem next_invokes_top_without_popping_wit :
    ctxWithHandle.next (some "boom") = (ctxWithHandle, some (5, some "boom")) :=
  next_invokes_top_without_popping ctxWithHandle 5 (some "boom") rfl

/-- C2: under the spec-modelled upstream-header rule, the header set
supplied to the upstream call by `proxyWithHeaders` contains none of the
named headers and every other inbound header with its original value; and
with the source's default removal list the original `host` header is
never forwarded. -/
theorem proxyWithHeaders_upstream_headers (c : Context) (q : Request) (url : String)
    (names : List String) (k : String) (h : c._request = some q) :
    hdrGet (upstreamRequestHeaders q.headers (c.proxyWithHeaders url names).1) k
      = (if k ∈ names then none else hdrGet q.headers k) ∧
    hdrGet (upstreamRequestHeaders q.headers
      (c.proxyWithHeaders url defaultRemoveHeaderNames).1) "host" = none := by
  have main : ∀ (ns : List String) (kk : String),
      hdrGet (upstreamRequestHeaders q.headers (c.proxyWithHeaders url ns).1) kk
        = if kk ∈ ns then none else hdrGet q.headers kk := by
    intro ns kk
    simp [Context.proxyWithHeaders, upstreamRequestHeaders, parseProxyTarget, h,
      cloneHeaders_eq, hdrGet_foldl_hdrDelete]
  refine ⟨main names k, ?_⟩
  rw [main defaultRemoveHeaderNames "host"]
  simp [defaultRemoveHeaderNames]

/-- Witness for C2 at the sample context: removing only `accept` keeps the
inbound `host` value, and the default removal list drops `host`. -/
theorem proxyWithHeaders_upstream_headers_wit :
    hdrGet (upstreamRequestHeaders sampleRequest.headers
        (sampleCtx.proxyWithHeaders "http://up.example" ["accept"]).1) "host"
      = some "example.com" ∧
    hdrGet (upstreamRequestHeaders sampleRequest.headers
        (sampleCtx.proxyWithHeaders "http://up.example" defaultRemoveHeaderNames).1) "host"
      = none := by
  have h := proxyWithHeaders_upstream_headers sampleCtx sampleRequest
    "http://up.example" ["accept"] "host" rfl
  refine ⟨?_, h.2⟩
  rw [h.1]
  decide

/-- C3 counterexample: calling `init` a second time on the sample context
replaces the request wrapper with a fresh one built from the new raw
request — the second call is accepted silently, not rejected. -/
theorem init_twice_replaces_wrappers_cex :
    twiceCtx._request = some (createRequest secondRawRequest) ∧
    twiceCtx._request ≠ sampleCtx._request := by
  constructor
  · rfl
  · decide

/-- C3 (amended): `init` is total and unconditional — on any context,
already initialized or not, it installs fresh Request/Response wrappers
built from its raw arguments and raises no error; the exactly-once
requirement is an obligation on the caller, not enforced by the code. -/
theorem init_always_replaces_wrappers (c : Context) (req : IncomingMessage)
    (res : ServerResponse) :
    (c.init req res)._request = some (createRequest req) ∧
    (c.init req res)._response
      = some ((createResponse res).setHeader "X-Powered-By" "@leizm/web") :=
  ⟨rfl, rfl⟩

/-- C4: on a context whose continuation stack is empty, `next` (with any
error argument) performs no invocation and changes nothing, and popping
likewise returns `none` and changes nothing — both are silent no-ops. -/
theorem next_and_pop_on_empty_stack_noop (c : Context) (err : Option ErrorReason)
    (h : c.nextHandleStack = []) :
    c.next err = (c, none) ∧ c.popNextHandle = (c, none) := by
  cases c with
  | mk req res stack sess route =>
    simp only [Context.next, Context.popNextHandle] at *
    subst h
    exact ⟨rfl, rfl⟩

/-- Witness for C4 at a freshly created context, whose stack is empty. -/
theorem next_and_pop_on_empty_stack_noop_wit :
    Context.create.next (some "late error") = (Context.create, none) ∧
    Context.create.popNextHandle = (Context.create, none) :=
  next_and_pop_on_empty_stack_noop Context.create (some "late error") rfl

/-- C5: the continuation stack is LIFO — after pushing `n` onto any
context, `next` invokes exactly `n` (the most recently pushed, not yet
popped continuation), and the pop operation returns that same `n`,
restoring the previous stack. -/
theorem nextHandleStack_lifo (c : Context) (n : NextFunction) (err : Option ErrorReason) :
    (c.pushNextHandle n).next err = (c.pushNextHandle n, some (n, err)) ∧
    (c.pushNextHandle n).popNextHandle = (c, some n) := by
  constructor
  · simp [Context.next, Context.pushNextHandle, getLast_append_single]
  · simp [Context.popNextHandle, Context.pushNextHandle, getLast_append_single,
      dropLast_append_single]

/-- C6: `init` sets the fixed marker header `X-Powered-By` with the
byte-exact value `@leizm/web` on the response wrapper — the same value
for every context and every raw request/response pair, so it is present
once `init` returns. -/
theorem init_sets_powered_by_header (c : Context) (req : IncomingMessage)
    (res : ServerResponse) :
    ((c.init req res)._response).map (fun r => hdrGet r.headers "X-Powered-By")
      = some (some "@leizm/web") := by
  simp [Context.init, Response.setHeader, hdrGet_hdrSet_self]

/-- C7: reading `session` on a context with no attached session raises the
documented error; once a session is attached, reading it returns exactly
that session object. -/
theorem session_requires_attachment (c : Context) :
    (c.sessionSymbol = none →
      c.session = Except.error "ctx.session: please use component.session() middleware firstly") ∧
    (∀ s : SessionInstance, c.sessionSymbol = some s → c.session = Except.ok s) := by
  constructor
  · intro h
    simp [Context.session, h]
  · intro s h
    simp [Context.session, h]

/-- Witness for C7: the sample context (no session) errors; the context
with session `7` attached returns it. -/
theorem session_requires_attachment_wit :
    sampleCtx.session
      = Except.error "ctx.session: please use component.session() middleware firstly" ∧
    sessionCtx.session = Except.ok { instId := 7 } :=
  ⟨(session_requires_attachment sampleCtx).1 rfl,
    (session_requires_attachment sessionCtx).2 { instId := 7 } rfl⟩

/-- C8: `route` returns the dispatch-engine-attached metadata when
present; otherwise, on an initialized context, it returns the derived
default built from the request wrapper's method (empty string when the
request has none) and path. -/
theorem route_metadata_or_default (c : Context) :
    (∀ r : RawRouteInfo, c.rawRouteInfo = some r → c.route = some r) ∧
    (∀ q : Request, c.rawRouteInfo = none → c._request = some q →
      c.route = some { method := q.method.getD "", path := q.path }) := by
  constructor
  · intro r h
    simp [Context.route, h]
  · intro q hr hq
    simp [Context.route, hr, hq]

/-- Witness for C8: the routed context returns the attached metadata; the
context built from the method-less request falls back to the empty-string
method and the request path. -/
theorem route_metadata_or_default_wit :
    routedCtx.route = some { method := "GET", path := "/m" } ∧
    methodlessCtx.route = some { method := "", path := "/plain" } :=
  ⟨(route_metadata_or_default routedCtx).1 { method := "GET", path := "/m" } rfl,
    (route_metadata_or_default methodlessCtx).2 (createRequest methodlessRawRequest) rfl rfl⟩

/-- C9: `proxyWithHeaders` works on a clone of the inbound header set, so
the context — in particular its request wrapper and the wrapper's
headers — is returned entirely unchanged for every URL and removal
list. -/
theorem proxyWithHeaders_preserves_context (c : Context) (url : String)
    (names : List String) :
    (c.proxyWithHeaders url names).2 = c :=
  rfl

/-- C10: `next` neither pushes nor pops — the context after the call is
the one before it — so two consecutive calls with no intervening push or
pop produce the same invocation event (the same top continuation, called
with the same error each time). -/
theorem next_leaves_stack_unchanged (c : Context) (e1 e2 : Option ErrorReason) :
    (c.next e1).1 = c ∧ ((c.next e2).1.next e1).2 = (c.next e1).2 := by
  have h1 : ∀ e : Option ErrorReason, (c.next e).1 = c := by
    intro e
    unfold Context.next
    cases c.nextHandleStack.getLast? <;> rfl
  exact ⟨h1 e1, by rw [h1 e2]⟩

end LeizmWeb
